import Mathlib

/-!
Verification development for the HSE work-permit risk-analysis system.

The backend Risk Analysis Orchestration Engine is specified in `spec.md`
but its implementation is not part of the checked-in sources (only its API
documentation and the TypeScript frontend are).  The engine (profiles,
phase controller, specialist agents, result merger, wire encoding) is
therefore modelled here from the specification; the frontend helpers
(`apiCall` timeout selection, the new-permit page's preview-analysis
handler) are embedded directly from the TypeScript sources.
-/

namespace HSE

/-- Modelled from the spec: the closed set of hazard-category tags (§3);
the backend source defining this enumeration is missing from the sources. -/
inductive HazardCat where
  | mechanical | chemical | electrical | height | hotWork
  | confinedSpace | biological | other
deriving DecidableEq

/-- Modelled from the spec: action-item priority levels (§3). -/
inductive Priority where
  | low | medium | high | critical
deriving DecidableEq

/-- Modelled from the spec: the analysis profiles (§3, §4.2); the source's
orchestrator implementations selected by string flag are missing from the
sources and are modelled as this single enumeration (§9). -/
inductive AnalysisProfile where
  | minimal | standard | extended | simulated
deriving DecidableEq

/-- Modelled from the spec: the specialist-agent hazard domains (§2). -/
inductive AgentKind where
  | chemical | electrical | height | hotWork | confinedSpace
  | mechanical | dpi | riskGeneric
deriving DecidableEq

/-- Modelled from the spec: per-agent result status (§3). -/
inductive AgentStatus where
  | succeeded | degraded | failed
deriving DecidableEq

/-- Modelled from the spec: citation kinds, following the response structure
documented in the repository's AI Orchestrator API Guide (`normative`,
`procedures`, `guidelines` buckets). -/
inductive CitKind where
  | normative | procedure | guideline
deriving DecidableEq

def catRank : HazardCat → Nat
  | .mechanical => 0 | .chemical => 1 | .electrical => 2 | .height => 3
  | .hotWork => 4 | .confinedSpace => 5 | .biological => 6 | .other => 7

def catName : HazardCat → String
  | .mechanical => "mechanical" | .chemical => "chemical"
  | .electrical => "electrical" | .height => "height"
  | .hotWork => "hot-work" | .confinedSpace => "confined-space"
  | .biological => "biological" | .other => "other"

def prioRank : Priority → Nat
  | .low => 0 | .medium => 1 | .high => 2 | .critical => 3

def prioName : Priority → String
  | .low => "low" | .medium => "medium" | .high => "high" | .critical => "critical"

def citKindRank : CitKind → Nat
  | .normative => 0 | .procedure => 1 | .guideline => 2

/-- Modelled from the spec: the immutable permit input record (§3). -/
structure Permit where
  title : String
  description : String
  workType : String
  location : String
  durationH : Nat
  dpiList : List String
  mitigations : List String
  tenantId : Nat
deriving DecidableEq

/-- Modelled from the spec: an action item (§3, and the `action_items`
entry shape of the repository's AI Orchestrator API Guide). -/
structure ActionItem where
  id : String
  typ : String
  category : HazardCat
  priority : Priority
  title : String
  description : String
  action : String
  consequences : String
  refs : List String
  effort : String
  role : String
deriving DecidableEq

/-- Modelled from the spec: a citation produced by one agent (§3);
`relevance` is a percentage score. -/
structure Citation where
  kind : CitKind
  source : String
  requirement : String
  relevance : Nat
deriving DecidableEq

/-- Modelled from the spec: a merged citation entry, grouped by source with
the union of matched requirements (§4.4 rule 3). -/
structure CitGroup where
  kind : CitKind
  source : String
  reqs : List String
  relevance : Nat
deriving DecidableEq

/-- Modelled from the spec: the per-agent output record ("PartialResult",
§3): agent identity, status, candidate items and citations, a confidence
in [0,1], elapsed time. -/
structure AgentReport where
  kind : AgentKind
  status : AgentStatus
  confidence : ℚ
  items : List ActionItem
  cits : List Citation
  elapsedMs : Nat

/-- Text normalisation used by the dedup key (lower-case, trimmed). -/
def normTxt (s : String) : String := s.toLower.trim

/-- Injective encoding of an action item into a lexicographic tuple; the
dedup key (category, normalised remediation) forms the two most
significant components, priority rank the third. -/
def encIt (a : ActionItem) :
    Lex (Nat × Lex (String × Lex (Nat × Lex (String × Lex (String × Lex (String ×
      Lex (String × Lex (String × Lex (String ×
        Lex (List String × Lex (String × String))))))))))) :=
  toLex (catRank a.category, toLex (normTxt a.action, toLex (prioRank a.priority,
    toLex (a.title, toLex (a.description, toLex (a.id, toLex (a.typ,
      toLex (a.action, toLex (a.consequences,
        toLex (a.refs, toLex (a.effort, a.role)))))))))))

/-- The canonical total order on action items. -/
def itLe (a b : ActionItem) : Prop := encIt a ≤ encIt b

instance : DecidableRel itLe :=
  fun a b => inferInstanceAs (Decidable (encIt a ≤ encIt b))

instance : IsTotal ActionItem itLe := ⟨fun a b => le_total (encIt a) (encIt b)⟩

instance : IsTrans ActionItem itLe := ⟨fun _ _ _ h1 h2 => le_trans h1 h2⟩

/-- Injective encoding of a citation into a lexicographic tuple, with the
grouping key (kind, source) leading. -/
def encCit (c : Citation) : Lex (Nat × Lex (String × Lex (String × Nat))) :=
  toLex (citKindRank c.kind, toLex (c.source, toLex (c.requirement, c.relevance)))

/-- The canonical total order on citations. -/
def citLe (a b : Citation) : Prop := encCit a ≤ encCit b

instance : DecidableRel citLe :=
  fun a b => inferInstanceAs (Decidable (encCit a ≤ encCit b))

instance : IsTotal Citation citLe := ⟨fun a b => le_total (encCit a) (encCit b)⟩

instance : IsTrans Citation citLe := ⟨fun _ _ _ h1 h2 => le_trans h1 h2⟩

instance : IsAntisymm ActionItem itLe := ⟨by
  intro a b h1 h2
  have hcat : ∀ x y, catRank x = catRank y → x = y := by
    intro x y
    cases x <;> cases y <;> simp [catRank]
  have hpri : ∀ x y, prioRank x = prioRank y → x = y := by
    intro x y
    cases x <;> cases y <;> simp [prioRank]
  simp only [itLe] at h1 h2
  have h := le_antisymm h1 h2
  simp only [encIt, toLex_inj, Prod.mk.injEq] at h
  obtain ⟨hc, -, hp, ht, hd, hi, hty, ha, hco, hr, he, hro⟩ := h
  cases a
  cases b
  simp_all
  exact ⟨hcat _ _ hc, hpri _ _ hp⟩⟩

instance : IsAntisymm Citation citLe := ⟨by
  intro a b h1 h2
  have hk : ∀ x y, citKindRank x = citKindRank y → x = y := by
    intro x y
    cases x <;> cases y <;> simp [citKindRank]
  simp only [citLe] at h1 h2
  have h := le_antisymm h1 h2
  simp only [encCit, toLex_inj, Prod.mk.injEq] at h
  obtain ⟨hc, hs, hr, hrel⟩ := h
  cases a
  cases b
  simp_all
  exact hk _ _ hc⟩

/-- The dedup key of an action item: (hazard category, normalised
remediation text) (§4.4 rule 2). -/
def keyIt (a : ActionItem) : Lex (Nat × String) :=
  toLex (catRank a.category, normTxt a.action)

/-- Of two action items sharing a dedup key, the one kept: the strictly
higher-priority instance, ties resolved to the second (canonically later)
argument. -/
def pickBetter (a b : ActionItem) : ActionItem :=
  if prioRank b.priority < prioRank a.priority then a else b

/-- Collapse duplicate-key action items in a canonically sorted list,
keeping the higher-priority instance per key (§4.4 rule 2). -/
def collapse : List ActionItem → List ActionItem
  | [] => []
  | a :: t =>
    match collapse t with
    | [] => [a]
    | b :: u => if keyIt a = keyIt b then pickBetter a b :: u else a :: b :: u

/-- Display order for the final action-item list: priority descending
(critical > high > medium > low), then hazard-category name (§4.4 rule 2). -/
def dispEnc (a : ActionItem) : Lex (Nat × String) :=
  toLex (3 - prioRank a.priority, catName a.category)

def dispLe (a b : ActionItem) : Prop := dispEnc a ≤ dispEnc b

instance : DecidableRel dispLe :=
  fun a b => inferInstanceAs (Decidable (dispEnc a ≤ dispEnc b))

instance : IsTotal ActionItem dispLe := ⟨fun a b => le_total (dispEnc a) (dispEnc b)⟩

instance : IsTrans ActionItem dispLe := ⟨fun _ _ _ h1 h2 => le_trans h1 h2⟩

/-- A citation as a one-element group. -/
def toGroup (c : Citation) : CitGroup :=
  { kind := c.kind, source := c.source, reqs := [c.requirement], relevance := c.relevance }

/-- Merge a citation into the group for its source: union of requirements,
maximum relevance (§4.4 rule 3). -/
def mergeIntoGroup (c : Citation) (g : CitGroup) : CitGroup :=
  { kind := g.kind, source := g.source,
    reqs := if c.requirement ∈ g.reqs then g.reqs else c.requirement :: g.reqs,
    relevance := max c.relevance g.relevance }

/-- Group a canonically sorted citation list by (kind, source) (§4.4 rule 3). -/
def collapseC : List Citation → List CitGroup
  | [] => []
  | c :: t =>
    match collapseC t with
    | [] => [toGroup c]
    | g :: u =>
      if c.kind = g.kind ∧ c.source = g.source then mergeIntoGroup c g :: u
      else toGroup c :: g :: u

/-- Display order for citation groups: relevance descending, then source. -/
def gDispEnc (g : CitGroup) : Lex (Int × String) :=
  toLex (-(g.relevance : Int), g.source)

def gDispLe (a b : CitGroup) : Prop := gDispEnc a ≤ gDispEnc b

instance : DecidableRel gDispLe :=
  fun a b => inferInstanceAs (Decidable (gDispEnc a ≤ gDispEnc b))

instance : IsTotal CitGroup gDispLe := ⟨fun a b => le_total (gDispEnc a) (gDispEnc b)⟩

instance : IsTrans CitGroup gDispLe := ⟨fun _ _ _ h1 h2 => le_trans h1 h2⟩

/-- Modelled from the spec: merge weight per agent report — 1 for a
succeeded agent, 0.3 for degraded/failed-with-default (§4.4 rule 1). -/
def wOf (r : AgentReport) : ℚ := if r.status = .succeeded then 1 else 3/10

/-- Weighted confidence mass of a report list. -/
def sumWC (rs : List AgentReport) : ℚ := (rs.map (fun r => wOf r * r.confidence)).sum

/-- Total weight of a report list. -/
def sumW (rs : List AgentReport) : ℚ := (rs.map wOf).sum

/-- Modelled from the spec: aggregate confidence = weighted average of
per-agent confidences (§4.4 rule 1); the empty average is 0 (division by
zero yields 0). -/
def aggConf (rs : List AgentReport) : ℚ := sumWC rs / sumW rs

/-- Number of agents that succeeded. -/
def succCountR (rs : List AgentReport) : Nat :=
  rs.countP (fun r => decide (r.status = .succeeded))

/-- Modelled from the spec: the executive summary (§3, §4.4 rule 4, plus
the extra summary fields of the repository's AI Orchestrator API Guide). -/
structure ExecSummary where
  overall : ℚ
  criticalCount : Nat
  recCount : Nat
  compliance : String
  estTime : String
  findings : List String
  nextSteps : List String

/-- The fixed summary text reported when no agent produced any analysis. -/
def noAnalysisMsg : String := "no analysis could be completed"

/-- Modelled from the spec: the compliance level as a fixed threshold table
over aggregate confidence and critical-issue count (§4.4 rule 4; the spec
leaves the exact cutoffs open, §9). -/
def complianceOf (conf : ℚ) (crit : Nat) : String :=
  if crit = 0 ∧ 7/10 ≤ conf then "conforme"
  else if 2/5 ≤ conf then "parziale"
  else "requires_action"

/-- Modelled from the spec: the merged output of the Result Merger (§4.4). -/
structure MergeOutput where
  confidence : ℚ
  degraded : Bool
  succCount : Nat
  totalCount : Nat
  items : List ActionItem
  citsNorm : List CitGroup
  citsProc : List CitGroup
  citsGuide : List CitGroup
  summary : ExecSummary

/-- Canonically sorted union of all agents' action items. -/
def canonItems (rs : List AgentReport) : List ActionItem :=
  List.insertionSort itLe (rs.flatMap (fun r => r.items))

/-- Canonically sorted union of all agents' citations. -/
def canonCits (rs : List AgentReport) : List Citation :=
  List.insertionSort citLe (rs.flatMap (fun r => r.cits))

/-- Assemble the merge output from the permutation-invariant artifacts:
aggregate confidence, success/total counts, and the canonically sorted
item and citation unions. -/
def mkMergeOutput (conf : ℚ) (succ total : Nat)
    (citems : List ActionItem) (ccits : List Citation) : MergeOutput :=
  let items := List.insertionSort dispLe (collapse citems)
  let groups := collapseC ccits
  let crit := items.countP (fun a => decide (a.priority = .critical))
  { confidence := conf
    degraded := decide (succ < total ∨ total = 0)
    succCount := succ
    totalCount := total
    items := items
    citsNorm := List.insertionSort gDispLe (groups.filter (fun g => decide (g.kind = .normative)))
    citsProc := List.insertionSort gDispLe (groups.filter (fun g => decide (g.kind = .procedure)))
    citsGuide := List.insertionSort gDispLe (groups.filter (fun g => decide (g.kind = .guideline)))
    summary :=
      { overall := conf
        criticalCount := crit
        recCount := items.length
        compliance := complianceOf conf crit
        estTime := "2-4 ore"
        findings := (if succ = 0 then [noAnalysisMsg] else []) ++
          (items.filter (fun a => decide (a.priority = .critical))).map (fun a => a.title)
        nextSteps := (items.map (fun a => a.action)).take 3 } }

/-- Modelled from the spec: the deterministic, pure Result Merger
`Merge([]PartialResult) -> AnalysisResult` body (§4.4); ordering ties not
fixed by the spec are resolved by the canonical total orders above, as
required by the determinism clause of §4.4. -/
def mergeReports (rs : List AgentReport) : MergeOutput :=
  mkMergeOutput (aggConf rs) (succCountR rs) rs.length (canonItems rs) (canonCits rs)

/-- Modelled from the spec: Inference Client failure taxonomy (§4.1). -/
inductive InfErr where
  | timeout | rateLimited | unavailable | malformed
deriving DecidableEq

/-- Modelled from the spec: Retrieval Client failure taxonomy (§4.1). -/
inductive RetrErr where
  | timeout | rateLimited | unavailable | malformed
deriving DecidableEq

/-- Modelled from the spec: a ranked document returned by the Retrieval
Client (§6). -/
structure DocHit where
  docId : Nat
  title : String
  excerpt : String
  relevance : Nat
deriving DecidableEq

/-- Modelled from the spec: Inference Client request boundary (§6). -/
structure InferenceReq where
  prompt : String
  deadlineMs : Nat
deriving DecidableEq

/-- Modelled from the spec: a parsed successful inference payload for one
agent (typed partial result of §2). -/
structure AgentPayload where
  conf : ℚ
  items : List ActionItem
  cits : List Citation

/-- An inference reply together with its wall-clock duration. -/
structure InferenceReply where
  payload : Except InfErr AgentPayload
  timeMs : Nat

/-- Modelled from the spec: Retrieval Client request boundary (§6). -/
structure RetrievalReq where
  query : String
  tenant : Nat
  topK : Nat
deriving DecidableEq

/-- A retrieval reply together with its wall-clock duration. -/
structure RetrievalReply where
  docs : Except RetrErr (List DocHit)
  timeMs : Nat

/-- Modelled from the spec: the pair of external collaborators (§2); an
arbitrary `Env` models any behaviour of the external LLM inference and
vector-search services, including all failure modes. -/
structure Env where
  inference : InferenceReq → InferenceReply
  retrieval : RetrievalReq → RetrievalReply

/-- Modelled from the spec: the Inference Client wrapper — it honors its
deadline (a call never observably blocks past it; a longer reply is
classified as `Timeout` at the deadline, §4.1). -/
def callInf (env : Env) (req : InferenceReq) : Except InfErr AgentPayload × Nat :=
  let rep := env.inference req
  if req.deadlineMs < rep.timeMs then (Except.error InfErr.timeout, req.deadlineMs)
  else (rep.payload, rep.timeMs)

/-- Modelled from the spec: the Retrieval Client wrapper — bounded by the
total deadline, and any failure yields the empty document set (§4.2
`Retrieving`: never fatal). -/
def callRetr (env : Env) (total : Nat) (req : RetrievalReq) : List DocHit × Nat :=
  let rep := env.retrieval req
  if total < rep.timeMs then ([], total)
  else
    match rep.docs with
    | Except.ok ds => (ds, rep.timeMs)
    | Except.error _ => ([], rep.timeMs)

def clampQ (q : ℚ) : ℚ := max 0 (min 1 q)

def defaultItem (idStr : String) (cat : HazardCat) (prio : Priority)
    (titleStr actStr consStr roleStr : String) : ActionItem :=
  { id := idStr, typ := "risk_mitigation", category := cat, priority := prio,
    title := titleStr, description := titleStr, action := actStr,
    consequences := consStr, refs := ["D.Lgs 81/2008"], effort := "1-2 ore",
    role := roleStr }

/-- Modelled from the spec: the built-in rule-based default action items
per hazard domain (§4.3, e.g. hot-work → fire watch and gas detector). -/
def defaults : AgentKind → List ActionItem
  | .chemical =>
    [defaultItem "DEF_CHEM" .chemical .high "Verifica schede di sicurezza"
      "Consultare le SDS delle sostanze presenti" "Esposizione a sostanze pericolose" "RSPP"]
  | .electrical =>
    [defaultItem "DEF_ELEC" .electrical .high "Sezionamento impianto"
      "Togliere tensione e applicare lockout-tagout" "Folgorazione" "Preposto"]
  | .height =>
    [defaultItem "DEF_HGT" .height .high "Protezione anticaduta"
      "Usare imbracatura e linea vita certificata" "Caduta dall'alto" "Preposto"]
  | .hotWork =>
    [defaultItem "DEF_HOT" .hotWork .critical "Sorveglianza antincendio"
      "Predisporre fire watch e rilevatore gas" "Incendio o esplosione" "RSPP"]
  | .confinedSpace =>
    [defaultItem "DEF_CONF" .confinedSpace .critical "Controllo atmosfera"
      "Misurare ossigeno e gas tossici prima dell'ingresso" "Asfissia" "RSPP"]
  | .mechanical =>
    [defaultItem "DEF_MECH" .mechanical .medium "Blocco organi in movimento"
      "Fermare e bloccare le macchine prima dell'intervento" "Schiacciamento" "Preposto"]
  | .dpi =>
    [defaultItem "DEF_DPI" .other .medium "Verifica DPI di base"
      "Controllare casco, guanti e calzature di sicurezza" "Lesioni personali" "Lavoratore"]
  | .riskGeneric =>
    [defaultItem "DEF_GEN" .other .medium "Valutazione generale dei rischi"
      "Completare la valutazione dei rischi del permesso" "Rischi non controllati" "RSPP"]

/-- Modelled from the spec: the default normative citation attached by a
fallback result. -/
def defaultCits (_ : AgentKind) : List Citation :=
  [{ kind := .normative, source := "D.Lgs 81/2008",
     requirement := "Obblighi generali di sicurezza", relevance := 90 }]

/-- The degraded (fallback) report of an agent: fixed low confidence 0.3
and the rule-based defaults for its domain (§4.3). -/
def fallbackReport (k : AgentKind) (t : Nat) : AgentReport :=
  { kind := k, status := .degraded, confidence := 3/10,
    items := defaults k, cits := defaultCits k, elapsedMs := t }

/-- The fallback-default version of a report: the same agent's rule-based
default result (weight 0.3, confidence 0.3). -/
def fallbackOf (r : AgentReport) : AgentReport :=
  fallbackReport r.kind r.elapsedMs

/-- The external inference service always fails (every call returns a
structured error, e.g. `Unavailable`). -/
def alwaysFails (env : Env) : Prop :=
  ∀ req, ∃ e, (env.inference req).payload = Except.error e

/-- The agent's prompt, built from the permit and retrieved documents (§2). -/
def mkPrompt (k : AgentKind) (p : Permit) (docs : List DocHit) : String :=
  catName (match k with
    | .chemical => .chemical | .electrical => .electrical | .height => .height
    | .hotWork => .hotWork | .confinedSpace => .confinedSpace
    | .mechanical => .mechanical | .dpi => .other | .riskGeneric => .other)
  ++ " | " ++ p.title ++ " | " ++ p.description ++ " | " ++ p.workType
  ++ " | docs:" ++ toString docs.length

/-- Modelled from the spec: one Specialist Agent invocation
`Run(ctx, permit, documents) -> PartialResult` (§4.3): it never errors;
every Inference Client failure (including timeout) is substituted by the
rule-based fallback with confidence 0.3; a successful payload's confidence
is clamped to [0,1]. -/
def runAgent (k : AgentKind) (p : Permit) (docs : List DocHit) (env : Env)
    (dAg : Nat) : AgentReport :=
  match callInf env { prompt := mkPrompt k p docs, deadlineMs := dAg } with
  | (Except.ok pay, t) =>
    { kind := k, status := .succeeded, confidence := clampQ pay.conf,
      items := pay.items, cits := pay.cits, elapsedMs := t }
  | (Except.error _, t) => fallbackReport k t

/-- Modelled from the spec: which agents each profile runs (§3:
Minimal = one generic agent, Standard = 5 core agents, Extended = up to 8
domain specialists, Simulated = deterministic canned output). -/
def profileAgents : AnalysisProfile → List AgentKind
  | .minimal => [.riskGeneric]
  | .standard => [.chemical, .electrical, .hotWork, .confinedSpace, .mechanical]
  | .extended => [.chemical, .electrical, .height, .hotWork, .confinedSpace,
      .mechanical, .dpi, .riskGeneric]
  | .simulated => [.chemical, .electrical, .hotWork, .confinedSpace, .mechanical]

/-- Modelled from the spec: per-agent deadlines in ms per profile (§4.2,
informed by the repository's AI Orchestrator API Guide timeout table). -/
def perAgentDl : AnalysisProfile → Nat
  | .minimal => 10000
  | .standard => 15000
  | .extended => 20000
  | .simulated => 0

/-- Modelled from the spec: total deadlines in ms per profile (§4.2). -/
def totalDl : AnalysisProfile → Nat
  | .minimal => 30000
  | .standard => 60000
  | .extended => 90000
  | .simulated => 1000

/-- The canned report of one agent under the Simulated profile (no
external calls, deterministic output, §3). -/
def simReport (k : AgentKind) : AgentReport :=
  { kind := k, status := .succeeded, confidence := 17/20,
    items := defaults k, cits := defaultCits k, elapsedMs := 0 }

/-- Largest per-agent elapsed time (agents run in parallel, §5). -/
def maxElapsed (rs : List AgentReport) : Nat :=
  rs.foldr (fun r m => max r.elapsedMs m) 0

/-- The shared retrieval call of one `Analyze` invocation (§4.2
`Retrieving`: one lookup shared across agents). -/
def retrOf (p : Permit) (prof : AnalysisProfile) (env : Env) : List DocHit × Nat :=
  callRetr env (totalDl prof)
    { query := p.title ++ " " ++ p.workType, tenant := p.tenantId, topK := 5 }

/-- The per-agent deadline of one `Analyze` invocation: the shorter of the
profile's per-agent budget and the remaining total budget (§4.2). -/
def agentDlOf (p : Permit) (prof : AnalysisProfile) (env : Env) : Nat :=
  min (perAgentDl prof) (totalDl prof - (retrOf p prof env).2)

/-- The collected reports of one `Analyze` call: every selected agent
contributes exactly one report (§4.3 guarantees the controller always
receives a PartialResult per agent). -/
def reportsOf (p : Permit) (prof : AnalysisProfile) (env : Env) : List AgentReport :=
  if prof = .simulated then (profileAgents .simulated).map simReport
  else (profileAgents prof).map
    (fun k => runAgent k p (retrOf p prof env).1 env (agentDlOf p prof env))

/-- Elapsed time of one `Analyze` call: retrieval first, then the agents
in parallel, each bounded by min(per-agent, remaining total) (§4.2, §5). -/
def elapsedOf (p : Permit) (prof : AnalysisProfile) (env : Env) : Nat :=
  if prof = .simulated then 0
  else (retrOf p prof env).2 + maxElapsed (reportsOf p prof env)

/-- Modelled from the spec: the terminal immutable analysis output (§3 and
the response structure of the repository's AI Orchestrator API Guide). -/
structure AnalysisResult where
  analysisId : String
  permitId : Nat
  processingMs : Nat
  method : String
  body : MergeOutput

/-- Modelled from the spec: the `Merging`/`Done` tail of the phase
controller: hand the collected reports to the merger and wrap the result. -/
def runPipe (p : Permit) (prof : AnalysisProfile) (env : Env) : AnalysisResult :=
  { analysisId := "analysis_" ++ toString p.tenantId
    permitId := p.tenantId
    processingMs := elapsedOf p prof env
    method := "AI Multi-Agent"
    body := mergeReports (reportsOf p prof env) }

/-- Modelled from the spec: the fatal-error taxonomy of the orchestrator
facade (§7). -/
inductive OrchErr where
  | configurationError
deriving DecidableEq

/-- External-call counters of one `Analyze` invocation. -/
structure CallCounts where
  infCalls : Nat
  retCalls : Nat
deriving DecidableEq

/-- Calls issued by a run of the given profile: one retrieval plus one
inference call per agent, and none at all under Simulated (§3, §5). -/
def countsOf : AnalysisProfile → CallCounts
  | .simulated => { infCalls := 0, retCalls := 0 }
  | prof => { infCalls := (profileAgents prof).length, retCalls := 1 }

/-- Modelled from the spec: profile-name parsing — the string enum
`minimal|standard|extended|simulated` (§6); unknown values are rejected. -/
def parseProfile (s : String) : Option AnalysisProfile :=
  if s = "minimal" then some .minimal
  else if s = "standard" then some .standard
  else if s = "extended" then some .extended
  else if s = "simulated" then some .simulated
  else none

/-- Modelled from the spec: the orchestrator facade
`Analyze(permit, profile) -> AnalysisResult | error` (§2, §6): an unknown
profile fails fast with a configuration error before any external call. -/
def analyze (p : Permit) (s : String) (env : Env) :
    Except OrchErr AnalysisResult × CallCounts :=
  match parseProfile s with
  | none => (Except.error OrchErr.configurationError, { infCalls := 0, retCalls := 0 })
  | some prof => (Except.ok (runPipe p prof env), countsOf prof)

/-- A JSON-like wire value, used to state schema-completeness of the
response shape. -/
inductive WireValue where
  | s (v : String)
  | q (v : ℚ)
  | n (v : Nat)
  | arr (vs : List WireValue)
  | obj (fields : List (String × WireValue))

/-- The field names of an object wire value. -/
def fieldKeys : WireValue → List String
  | .obj fs => fs.map (fun f => f.1)
  | _ => []

/-- Project an object field by name (empty string on a miss). -/
def objAt (v : WireValue) (k : String) : WireValue :=
  match v with
  | .obj fs =>
    match fs.find? (fun f => f.1 == k) with
    | some f => f.2
    | none => .s ""
  | _ => .s ""

/-- The elements of an array wire value. -/
def arrElems : WireValue → List WireValue
  | .arr vs => vs
  | _ => []

/-- Wire encoding of one action item, following the `action_items` entry
shape of the repository's AI Orchestrator API Guide. -/
def encWireItem (a : ActionItem) : WireValue :=
  .obj [("id", .s a.id), ("type", .s a.typ), ("priority", .s (prioName a.priority)),
    ("title", .s a.title), ("description", .s a.description),
    ("suggested_action", .s a.action),
    ("consequences_if_ignored", .s a.consequences),
    ("references", .arr (a.refs.map WireValue.s)),
    ("estimated_effort", .s a.effort), ("responsible_role", .s a.role),
    ("frontend_display", .obj [("icon", .s "alert-triangle"), ("color", .s "red")])]

/-- Wire encoding of one merged citation entry, following the citations
entry shape of the repository's AI Orchestrator API Guide. -/
def encWireCit (g : CitGroup) : WireValue :=
  .obj [("document_info", .obj [("title", .s g.source), ("type", .s "normativa"),
          ("code", .s g.source)]),
    ("relevance", .obj [("score", .n g.relevance),
          ("context", .s "Riferimento normativo applicabile")]),
    ("key_requirements", .arr (g.reqs.map WireValue.s)),
    ("frontend_display", .obj [("icon", .s "book"), ("color", .s "blue")])]

/-- Modelled from the spec: the wire encoding of an analysis result; the
field structure follows the response structure documented in the
repository's AI Orchestrator API Guide ("Struttura Risposta"), which is
the repository's authoritative statement of the shape (the backend
serializer itself is missing from the sources). -/
def encodeResult (r : AnalysisResult) : WireValue :=
  .obj [("analysis_id", .s r.analysisId),
    ("permit_id", .n r.permitId),
    ("confidence_score", .q r.body.confidence),
    ("processing_time", .n r.processingMs),
    ("executive_summary", .obj [("overall_score", .q r.body.summary.overall),
      ("critical_issues", .n r.body.summary.criticalCount),
      ("recommendations", .n r.body.summary.recCount),
      ("compliance_level", .s r.body.summary.compliance),
      ("estimated_completion_time", .s r.body.summary.estTime),
      ("key_findings", .arr (r.body.summary.findings.map WireValue.s)),
      ("next_steps", .arr (r.body.summary.nextSteps.map WireValue.s))]),
    ("action_items", .arr (r.body.items.map encWireItem)),
    ("citations", .obj [("normative", .arr (r.body.citsNorm.map encWireCit)),
      ("procedures", .arr (r.body.citsProc.map encWireCit)),
      ("guidelines", .arr (r.body.citsGuide.map encWireCit))]),
    ("completion_roadmap", .obj [
      ("immediate", .arr (((r.body.items.filter
        (fun a => decide (a.priority = .critical))).map (fun a => a.action)).map WireValue.s)),
      ("short_term", .arr (((r.body.items.filter
        (fun a => decide (a.priority = .high))).map (fun a => a.action)).map WireValue.s)),
      ("long_term", .arr (((r.body.items.filter
        (fun a => decide (prioRank a.priority ≤ 1))).map (fun a => a.action)).map WireValue.s))]),
    ("performance_metrics", .obj [("total_processing_time", .n r.processingMs),
      ("agents_successful", .n r.body.succCount),
      ("agents_total", .n r.body.totalCount),
      ("analysis_method", .s r.method)])]

def topKeysActual : List String :=
  ["analysis_id", "permit_id", "confidence_score", "processing_time",
   "executive_summary", "action_items", "citations", "completion_roadmap",
   "performance_metrics"]

def sumKeysActual : List String :=
  ["overall_score", "critical_issues", "recommendations", "compliance_level",
   "estimated_completion_time", "key_findings", "next_steps"]

def itemKeysActual : List String :=
  ["id", "type", "priority", "title", "description", "suggested_action",
   "consequences_if_ignored", "references", "estimated_effort",
   "responsible_role", "frontend_display"]

def citKeysActual : List String :=
  ["document_info", "relevance", "key_requirements", "frontend_display"]

def citBucketsActual : List String := ["normative", "procedures", "guidelines"]

def roadmapKeysActual : List String := ["immediate", "short_term", "long_term"]

def perfKeysActual : List String :=
  ["total_processing_time", "agents_successful", "agents_total", "analysis_method"]

/-- Schema-completeness of a wire response: every field of the documented
response structure is present at every level, with no missing member. -/
def respShapeB (v : WireValue) : Bool :=
  (fieldKeys v == topKeysActual)
  && (fieldKeys (objAt v "executive_summary") == sumKeysActual)
  && (arrElems (objAt v "action_items")).all (fun it => fieldKeys it == itemKeysActual)
  && (fieldKeys (objAt v "citations") == citBucketsActual)
  && (arrElems (objAt (objAt v "citations") "normative")).all
      (fun c => fieldKeys c == citKeysActual)
  && (arrElems (objAt (objAt v "citations") "procedures")).all
      (fun c => fieldKeys c == citKeysActual)
  && (arrElems (objAt (objAt v "citations") "guidelines")).all
      (fun c => fieldKeys c == citKeysActual)
  && (fieldKeys (objAt v "completion_roadmap") == roadmapKeysActual)
  && (fieldKeys (objAt v "performance_metrics") == perfKeysActual)

/-- The top-level field list claimed by the specification's wire-shape
sentence (§6), with no `permit_id` and no `completion_roadmap`. -/
def topKeysClaimed : List String :=
  ["analysis_id", "confidence_score", "processing_time", "executive_summary",
   "action_items", "citations", "performance_metrics"]

/-- The citation bucket list claimed by the specification's wire-shape
sentence (§6): `normative` and `internal`. -/
def citBucketsClaimed : List String := ["normative", "internal"]

/-- The wire-shape property exactly as the specification's sentence states
it: the response contains exactly the claimed top-level fields and exactly
the claimed citation buckets. -/
def claimedShape (v : WireValue) : Prop :=
  fieldKeys v = topKeysClaimed ∧ fieldKeys (objAt v "citations") = citBucketsClaimed

end HSE

namespace Frontend

/-- From `src/frontend/src/config/api.ts`: `API_BASE_URL` default. -/
def apiBaseUrl : String := "http://localhost:8000"

/-- Does `pat` occur at the start of `l`? (List-level helper for the
TypeScript `String.prototype.includes` check.) -/
def startsWithL : List Char → List Char → Bool
  | [], _ => true
  | _ :: _, [] => false
  | p :: ps, c :: cs => p == c && startsWithL ps cs

/-- Does `pat` occur anywhere in `l`? -/
def hasSubL (pat : List Char) : List Char → Bool
  | [] => startsWithL pat []
  | c :: cs => startsWithL pat (c :: cs) || hasSubL pat cs

/-- From `src/frontend/src/config/api.ts`: `endpoint.includes(sub)`. -/
def strIncludes (s sub : String) : Bool := hasSubL sub.toList s.toList

/-- Semantic substring occurrence: `sub` occurs contiguously inside `s`. -/
def SubOccurs (sub s : String) : Prop :=
  ∃ l r, s.toList = l ++ sub.toList ++ r

/-- From `src/frontend/src/config/api.ts` lines 70-75: the timeout chosen
by `apiCall` — 120000 ms for document/permit endpoints, 10000 ms
otherwise. -/
def apiCallTimeoutMs (endpoint : String) : Nat :=
  if strIncludes endpoint "/documents" || strIncludes endpoint "/permits"
      || strIncludes endpoint "/work-permits"
  then 120000 else 10000

/-- The request issued by `apiCallWithTimeout` (url and timeout; the
fetch itself is external I/O). -/
structure FetchReq where
  url : String
  timeoutMs : Nat
deriving DecidableEq

/-- From `src/frontend/src/config/api.ts` lines 78-116: `apiCallWithTimeout`
builds the request from the base url, the endpoint and the timeout
(default 10000 ms). -/
def apiCallWithTimeoutReq (endpoint : String) (timeoutMs : Nat := 10000) : FetchReq :=
  { url := apiBaseUrl ++ endpoint, timeoutMs := timeoutMs }

/-- From `src/frontend/src/config/api.ts` lines 70-75: `apiCall` selects
the timeout and delegates to `apiCallWithTimeout`. -/
def apiCallReq (endpoint : String) : FetchReq :=
  apiCallWithTimeoutReq endpoint (apiCallTimeoutMs endpoint)

/-- From `src/unnamed/part_015` (the new-permit page): the form state. -/
structure PermitForm where
  title : String
  description : String
  workType : String
  location : String
  riskLevel : String
  startDate : String
  endDate : String
  contractorName : String
  contractorCompany : String
  safetyRequirements : String
  equipmentRequired : String
  hazardsIdentified : String
  controlMeasures : String
  riskMitigationActions : String
deriving DecidableEq

/-- The body pairs of `JSON.stringify(formData)`. -/
def formPairs (f : PermitForm) : List (String × String) :=
  [("title", f.title), ("description", f.description), ("work_type", f.workType),
   ("location", f.location), ("risk_level", f.riskLevel),
   ("start_date", f.startDate), ("end_date", f.endDate),
   ("contractor_name", f.contractorName), ("contractor_company", f.contractorCompany),
   ("safety_requirements", f.safetyRequirements),
   ("equipment_required", f.equipmentRequired),
   ("hazards_identified", f.hazardsIdentified),
   ("control_measures", f.controlMeasures),
   ("risk_mitigation_actions", f.riskMitigationActions)]

/-- From `src/unnamed/part_015`: the page state touched by
`handlePreviewAnalysis`. -/
structure PageState where
  error : Option String
  isAnalyzing : Bool
  analysisResult : Option String
  showAnalysis : Bool
deriving DecidableEq

/-- An outgoing POST request of the page. -/
structure PostReq where
  endpoint : String
  method : String
  body : List (String × String)
deriving DecidableEq

/-- From `src/unnamed/part_015` lines 62-90: `handlePreviewAnalysis`
clears the error, raises the analyzing flag, validates title/description/
work_type, and either sets a validation error (no request) or issues the
POST to `/api/v1/permits/analyze-preview` with `analysis_type:
"comprehensive"` appended to the form body.  The returned state is the
state at the moment the request (if any) is issued. -/
def handlePreviewAnalysis (f : PermitForm) (st : PageState) :
    PageState × Option PostReq :=
  let st1 := { st with error := none, isAnalyzing := true }
  if f.title = "" || f.description = "" || f.workType = "" then
    ({ st1 with
        error := some "Title, description, and work type are required for analysis",
        isAnalyzing := false }, none)
  else
    (st1, some
      { endpoint := "/api/v1/permits/analyze-preview", method := "POST",
        body := formPairs f ++ [("analysis_type", "comprehensive")] })

end Frontend

namespace HSE

/-- A sample permit used to instantiate the universally quantified
theorems at concrete inputs. -/
def samplePermit : Permit :=
  { title := "Riparazione saldatura tubazione", description := "pipeline weld repair",
    workType := "hot_work", location := "Area 1", durationH := 8,
    dpiList := ["guanti"], mitigations := ["fire watch"], tenantId := 1 }

/-- An environment in which every external collaborator fails
(`Unavailable`) immediately. -/
def failEnv : Env :=
  { inference := fun _ => { payload := Except.error InfErr.unavailable, timeMs := 0 }
    retrieval := fun _ => { docs := Except.error RetrErr.unavailable, timeMs := 0 } }

/-- A sample succeeded report with full confidence. -/
def reportB : AgentReport :=
  { kind := .electrical, status := .succeeded, confidence := 1,
    items := defaults .electrical, cits := defaultCits .electrical, elapsedMs := 5 }

/-- A sample succeeded report whose confidence equals the fallback
constant 0.3. -/
def reportA : AgentReport :=
  { kind := .chemical, status := .succeeded, confidence := 3/10,
    items := defaults .chemical, cits := defaultCits .chemical, elapsedMs := 7 }

end HSE

namespace HSE

theorem sortIt_eq_of_perm {l₁ l₂ : List ActionItem} (h : l₁.Perm l₂) :
    List.insertionSort itLe l₁ = List.insertionSort itLe l₂ :=
  List.eq_of_perm_of_sorted
    ((List.perm_insertionSort itLe l₁).trans (h.trans (List.perm_insertionSort itLe l₂).symm))
    (List.sorted_insertionSort itLe l₁) (List.sorted_insertionSort itLe l₂)

theorem sortCit_eq_of_perm {l₁ l₂ : List Citation} (h : l₁.Perm l₂) :
    List.insertionSort citLe l₁ = List.insertionSort citLe l₂ :=
  List.eq_of_perm_of_sorted
    ((List.perm_insertionSort citLe l₁).trans (h.trans (List.perm_insertionSort citLe l₂).symm))
    (List.sorted_insertionSort citLe l₁) (List.sorted_insertionSort citLe l₂)

/-- Claim C2: `Merge` is permutation-invariant and deterministic — for any
two report lists that are permutations of each other, the merged outputs
are equal, hence have byte-identical action-item and citation ordering and
identical aggregate confidence. -/
theorem merge_perm_invariant (xs ys : List AgentReport) (h : xs.Perm ys) :
    mergeReports xs = mergeReports ys := by
  have hconf : aggConf xs = aggConf ys := by
    unfold aggConf sumWC sumW
    rw [(h.map _).sum_eq, (h.map _).sum_eq]
  have hsucc : succCountR xs = succCountR ys := h.countP_eq _
  have hlen : xs.length = ys.length := h.length_eq
  have hitems : canonItems xs = canonItems ys := by
    unfold canonItems
    exact sortIt_eq_of_perm (h.flatMap_right _)
  have hcits : canonCits xs = canonCits ys := by
    unfold canonCits
    exact sortCit_eq_of_perm (h.flatMap_right _)
  unfold mergeReports
  rw [hconf, hsucc, hlen, hitems, hcits]

/-- Witness for C2 at a concrete transposed pair of report lists. -/
theorem merge_perm_invariant_witness :
    mergeReports [reportB, reportA] = mergeReports [reportA, reportB] :=
  merge_perm_invariant _ _ (List.Perm.swap reportA reportB [])

/-- Claim C3: an unknown profile string makes `Analyze` return a
configuration error immediately, with zero external calls and no partial
work done. -/
theorem analyze_unknown_profile (p : Permit) (s : String) (env : Env)
    (h : parseProfile s = none) :
    analyze p s env =
      (Except.error OrchErr.configurationError, { infCalls := 0, retCalls := 0 }) := by
  unfold analyze
  rw [h]

/-- Witness for C3 at the concrete profile string "bogus". -/
theorem analyze_unknown_profile_witness :
    analyze samplePermit "bogus" failEnv =
      (Except.error OrchErr.configurationError, { infCalls := 0, retCalls := 0 }) :=
  analyze_unknown_profile samplePermit "bogus" failEnv (by decide)

theorem encWireItem_keys (a : ActionItem) : fieldKeys (encWireItem a) = itemKeysActual := rfl

theorem encWireCit_keys (g : CitGroup) : fieldKeys (encWireCit g) = citKeysActual := rfl

theorem all_item_keys (l : List ActionItem) :
    (l.map encWireItem).all (fun it => fieldKeys it == itemKeysActual) = true := by
  simp only [List.all_eq_true]
  intro x hx
  obtain ⟨a, -, rfl⟩ := List.mem_map.mp hx
  rw [encWireItem_keys]
  exact beq_self_eq_true _

theorem all_cit_keys (l : List CitGroup) :
    (l.map encWireCit).all (fun c => fieldKeys c == citKeysActual) = true := by
  simp only [List.all_eq_true]
  intro x hx
  obtain ⟨g, -, rfl⟩ := List.mem_map.mp hx
  rw [encWireCit_keys]
  exact beq_self_eq_true _

/-- Every encoded analysis result is schema-complete: all documented
fields are present at every level, with no missing or null member. -/
theorem encodeResult_shape (r : AnalysisResult) :
    respShapeB (encodeResult r) = true := by
  have e1 : arrElems (objAt (encodeResult r) "action_items") =
      r.body.items.map encWireItem := rfl
  have e2 : arrElems (objAt (objAt (encodeResult r) "citations") "normative") =
      r.body.citsNorm.map encWireCit := rfl
  have e3 : arrElems (objAt (objAt (encodeResult r) "citations") "procedures") =
      r.body.citsProc.map encWireCit := rfl
  have e4 : arrElems (objAt (objAt (encodeResult r) "citations") "guidelines") =
      r.body.citsGuide.map encWireCit := rfl
  simp only [respShapeB, e1, e2, e3, e4, Bool.and_eq_true]
  refine ⟨⟨⟨⟨⟨⟨⟨⟨rfl, rfl⟩, all_item_keys _⟩, rfl⟩, all_cit_keys _⟩,
    all_cit_keys _⟩, all_cit_keys _⟩, rfl⟩, rfl⟩

theorem callRetr_time_le (env : Env) (total : Nat) (req : RetrievalReq) :
    (callRetr env total req).2 ≤ total := by
  unfold callRetr
  by_cases h : total < (env.retrieval req).timeMs
  · simp [h]
  · simp only [h, if_false]
    cases (env.retrieval req).docs <;> simp <;> omega

theorem runAgent_elapsed_le (k : AgentKind) (p : Permit) (docs : List DocHit)
    (env : Env) (dAg : Nat) : (runAgent k p docs env dAg).elapsedMs ≤ dAg := by
  unfold runAgent callInf
  by_cases h : dAg <
      (env.inference { prompt := mkPrompt k p docs, deadlineMs := dAg }).timeMs
  · simp [h, fallbackReport]
  · simp only [h, if_false]
    cases (env.inference { prompt := mkPrompt k p docs, deadlineMs := dAg }).payload <;>
      simp [fallbackReport] <;> omega

theorem maxElapsed_le (rs : List AgentReport) (c : Nat)
    (h : ∀ r ∈ rs, r.elapsedMs ≤ c) : maxElapsed rs ≤ c := by
  induction rs with
  | nil => exact Nat.zero_le c
  | cons a t ih =>
    unfold maxElapsed
    simp only [List.foldr_cons]
    have h1 := h a (List.mem_cons_self a t)
    have h2 : maxElapsed t ≤ c := ih (fun r hr => h r (List.mem_cons_of_mem a hr))
    unfold maxElapsed at h2
    omega

theorem elapsed_le (p : Permit) (prof : AnalysisProfile) (env : Env) :
    elapsedOf p prof env ≤ totalDl prof := by
  unfold elapsedOf
  split
  · exact Nat.zero_le _
  · rename_i hs
    have htR : (retrOf p prof env).2 ≤ totalDl prof := callRetr_time_le env _ _
    have hmax : maxElapsed (reportsOf p prof env) ≤ agentDlOf p prof env := by
      apply maxElapsed_le
      intro r hr
      unfold reportsOf at hr
      rw [if_neg hs] at hr
      obtain ⟨k, -, rfl⟩ := List.mem_map.mp hr
      exact runAgent_elapsed_le k p _ env _
    have hd : agentDlOf p prof env ≤ totalDl prof - (retrOf p prof env).2 :=
      Nat.min_le_right _ _
    omega

/-- Claim C1: for every permit, every valid profile and every behaviour of
the external collaborators (including total failure), `Analyze` returns a
schema-complete `AnalysisResult` (never an error, never a partially
filled value) and its processing time is bounded by the profile's total
deadline (hence certainly by `total_deadline + ε`). -/
theorem analyze_totality (p : Permit) (s : String) (prof : AnalysisProfile)
    (env : Env) (h : parseProfile s = some prof) :
    (analyze p s env).1 = Except.ok (runPipe p prof env) ∧
    respShapeB (encodeResult (runPipe p prof env)) = true ∧
    (runPipe p prof env).processingMs ≤ totalDl prof := by
  refine ⟨?_, encodeResult_shape _, elapsed_le p prof env⟩
  unfold analyze
  rw [h]

/-- Witness for C1: the Standard profile against fully failing
collaborators. -/
theorem analyze_totality_witness :
    (analyze samplePermit "standard" failEnv).1 =
      Except.ok (runPipe samplePermit .standard failEnv) ∧
    respShapeB (encodeResult (runPipe samplePermit .standard failEnv)) = true ∧
    (runPipe samplePermit .standard failEnv).processingMs ≤ totalDl .standard :=
  analyze_totality samplePermit "standard" .standard failEnv (by decide)

theorem listSum_const {α : Type} (f : α → ℚ) (c : ℚ) :
    ∀ l : List α, (∀ x ∈ l, f x = c) → (l.map f).sum = l.length * c := by
  intro l
  induction l with
  | nil => simp
  | cons a t ih =>
    intro h
    simp only [List.map_cons, List.sum_cons, List.length_cons]
    rw [h a (by simp), ih (fun x hx => h x (by simp [hx]))]
    push_cast
    ring

theorem runAgent_not_succ (k : AgentKind) (p : Permit) (docs : List DocHit)
    (env : Env) (dAg : Nat)
    (h : (runAgent k p docs env dAg).status ≠ .succeeded) :
    (runAgent k p docs env dAg).confidence = 3/10 ∧
    (runAgent k p docs env dAg).items = defaults k := by
  revert h
  unfold runAgent callInf
  by_cases hlt : dAg <
      (env.inference { prompt := mkPrompt k p docs, deadlineMs := dAg }).timeMs
  · simp [hlt, fallbackReport]
  · simp only [hlt, if_false]
    cases (env.inference { prompt := mkPrompt k p docs, deadlineMs := dAg }).payload <;>
      simp [fallbackReport]

theorem runAgent_fail (k : AgentKind) (p : Permit) (docs : List DocHit)
    (env : Env) (dAg : Nat) (hf : alwaysFails env) :
    (runAgent k p docs env dAg).status = .degraded ∧
    (runAgent k p docs env dAg).confidence = 3/10 ∧
    (runAgent k p docs env dAg).items = defaults k := by
  unfold runAgent callInf
  by_cases hlt : dAg <
      (env.inference { prompt := mkPrompt k p docs, deadlineMs := dAg }).timeMs
  · simp [hlt, fallbackReport]
  · obtain ⟨e, he⟩ := hf { prompt := mkPrompt k p docs, deadlineMs := dAg }
    simp [hlt, he, fallbackReport]

theorem aggConf_all_fallback (rs : List AgentReport) (hne : rs ≠ [])
    (h : ∀ r ∈ rs, r.status ≠ .succeeded ∧ r.confidence = 3/10) :
    aggConf rs = 3/10 := by
  have hwc : sumWC rs = rs.length * (9/100) := by
    unfold sumWC
    apply listSum_const
    intro r hr
    obtain ⟨hs, hc⟩ := h r hr
    simp [wOf, hs, hc]
    norm_num
  have hw : sumW rs = rs.length * (3/10) := by
    unfold sumW
    apply listSum_const
    intro r hr
    simp [wOf, (h r hr).1]
  have hn : (0 : ℚ) < rs.length := by
    have : 0 < rs.length := List.length_pos.mpr hne
    exact_mod_cast this
  unfold aggConf
  rw [hwc, hw, mul_div_mul_left _ _ (ne_of_gt hn)]
  norm_num

theorem collapse_ne_nil (l : List ActionItem) (h : l ≠ []) : collapse l ≠ [] := by
  cases l with
  | nil => exact absurd rfl h
  | cons a t =>
    unfold collapse
    cases hct : collapse t with
    | nil => simp
    | cons b u =>
      by_cases hk : keyIt a = keyIt b <;> simp [hk]

theorem runAgent_kind (k : AgentKind) (p : Permit) (docs : List DocHit)
    (env : Env) (dAg : Nat) : (runAgent k p docs env dAg).kind = k := by
  unfold runAgent callInf
  by_cases hlt : dAg <
      (env.inference { prompt := mkPrompt k p docs, deadlineMs := dAg }).timeMs
  · simp [hlt, fallbackReport]
  · simp only [hlt, if_false]
    cases (env.inference { prompt := mkPrompt k p docs, deadlineMs := dAg }).payload <;>
      simp [fallbackReport]

theorem reportsOf_fail (p : Permit) (env : Env) (hf : alwaysFails env) :
    ∀ r ∈ reportsOf p .standard env,
      r.status = .degraded ∧ r.confidence = 3/10 ∧ r.items = defaults r.kind := by
  intro r hr
  unfold reportsOf at hr
  rw [if_neg (by decide)] at hr
  obtain ⟨k, -, rfl⟩ := List.mem_map.mp hr
  have h := runAgent_fail k p (retrOf p .standard env).1 env (agentDlOf p .standard env) hf
  refine ⟨h.1, h.2.1, ?_⟩
  rw [h.2.2]
  congr 1
  rw [runAgent_kind]

theorem mergeItems_ne_nil (rs : List AgentReport)
    (h : ∃ r ∈ rs, r.items ≠ []) : (mergeReports rs).items ≠ [] := by
  obtain ⟨r, hr, hitems⟩ := h
  have hflat : rs.flatMap (fun r => r.items) ≠ [] := by
    intro hc
    have := (List.flatMap_eq_nil_iff).mp hc r hr
    exact hitems this
  have hcanon : canonItems rs ≠ [] := by
    unfold canonItems
    intro hc
    apply hflat
    have := (List.perm_insertionSort itLe (rs.flatMap (fun r => r.items))).length_eq
    rw [hc] at this
    exact List.length_eq_zero.mp this.symm
  have hcol := collapse_ne_nil _ hcanon
  show List.insertionSort dispLe (collapse (canonItems rs)) ≠ []
  intro hc
  apply hcol
  have := (List.perm_insertionSort dispLe (collapse (canonItems rs))).length_eq
  rw [hc] at this
  exact List.length_eq_zero.mp this.symm

/-- All consequences of a fully failing inference service under the
Standard profile: degraded flag, fallback aggregate confidence, non-empty
rule-based action items. -/
theorem standardFail_facts (p2 : Permit) (env2 : Env) (hf : alwaysFails env2) :
    (runPipe p2 .standard env2).body.degraded = true ∧
    (runPipe p2 .standard env2).body.confidence = 3/10 ∧
    (runPipe p2 .standard env2).body.items ≠ [] := by
  refine ⟨?_, ?_, ?_⟩
  · show (mergeReports (reportsOf p2 .standard env2)).degraded = true
    have hlen : (reportsOf p2 .standard env2).length = 5 := by
      unfold reportsOf
      rw [if_neg (by decide)]
      simp [profileAgents]
    have hsucc : succCountR (reportsOf p2 .standard env2) = 0 := by
      unfold succCountR
      rw [List.countP_eq_zero]
      intro r hr
      have := (reportsOf_fail p2 env2 hf r hr).1
      simp [this]
    unfold mergeReports mkMergeOutput
    simp only [hsucc, hlen]
    decide
  · show (mergeReports (reportsOf p2 .standard env2)).confidence = 3/10
    have : (mergeReports (reportsOf p2 .standard env2)).confidence =
        aggConf (reportsOf p2 .standard env2) := rfl
    rw [this]
    apply aggConf_all_fallback
    · have : (reportsOf p2 .standard env2).length = 5 := by
        unfold reportsOf
        rw [if_neg (by decide)]
        simp [profileAgents]
      intro hc
      rw [hc] at this
      simp at this
    · intro r hr
      have h := reportsOf_fail p2 env2 hf r hr
      exact ⟨by simp [h.1], h.2.1⟩
  · apply mergeItems_ne_nil
    have hmem : ∀ r ∈ reportsOf p2 .standard env2, r.items ≠ [] := by
      intro r hr
      rw [(reportsOf_fail p2 env2 hf r hr).2.2]
      cases hk : r.kind <;> simp [defaults]
    have : reportsOf p2 .standard env2 ≠ [] := by
      have hlen : (reportsOf p2 .standard env2).length = 5 := by
        unfold reportsOf
        rw [if_neg (by decide)]
        simp [profileAgents]
      intro hc
      rw [hc] at hlen
      simp at hlen
    cases hr : reportsOf p2 .standard env2 with
    | nil => exact absurd hr this
    | cons r t => exact ⟨r, by simp, hmem r (by rw [hr]; simp)⟩

/-- Claim C5: every fallback (degraded) agent result carries the fixed
confidence 0.3 together with the rule-based default action items; and when
the inference service always fails under the Standard profile, the
analysis result is degraded with aggregate confidence exactly 0.3 and a
non-empty action-item list. -/
theorem fallback_confidence
    (k : AgentKind) (p : Permit) (docs : List DocHit) (env : Env) (dAg : Nat)
    (p2 : Permit) (env2 : Env)
    (h : (runAgent k p docs env dAg).status ≠ .succeeded)
    (hf : alwaysFails env2) :
    ((runAgent k p docs env dAg).confidence = 3/10 ∧
      (runAgent k p docs env dAg).items = defaults k) ∧
    ((runPipe p2 .standard env2).body.degraded = true ∧
      (runPipe p2 .standard env2).body.confidence = 3/10 ∧
      (runPipe p2 .standard env2).body.items ≠ []) :=
  ⟨runAgent_not_succ k p docs env dAg h, standardFail_facts p2 env2 hf⟩

/-- Witness for C5: a degraded agent run and the Standard profile against
an always-failing inference service. -/
theorem fallback_confidence_witness :
    ((runAgent .chemical samplePermit [] failEnv 100).confidence = 3/10 ∧
      (runAgent .chemical samplePermit [] failEnv 100).items = defaults .chemical) ∧
    ((runPipe samplePermit .standard failEnv).body.degraded = true ∧
      (runPipe samplePermit .standard failEnv).body.confidence = 3/10 ∧
      (runPipe samplePermit .standard failEnv).body.items ≠ []) :=
  fallback_confidence .chemical samplePermit [] failEnv 100 samplePermit failEnv
    (by simp [runAgent, callInf, failEnv, fallbackReport])
    (fun _ => ⟨InfErr.unavailable, rfl⟩)

/-- Counterexample to C4 as stated: a concrete `Analyze` call (Standard
profile, all collaborators failing) in which zero agents succeed, yet the
aggregate confidence is 0.3, not 0: the claimed "confidence equal to 0"
is false. -/
theorem zero_success_conf_counterexample :
    succCountR (reportsOf samplePermit .standard failEnv) = 0 ∧
    (runPipe samplePermit .standard failEnv).body.confidence = 3/10 ∧
    (3 : ℚ)/10 ≠ 0 := by
  have hf : alwaysFails failEnv := fun _ => ⟨InfErr.unavailable, rfl⟩
  refine ⟨?_, ?_, by norm_num⟩
  · unfold succCountR
    rw [List.countP_eq_zero]
    intro r hr
    simp [(reportsOf_fail samplePermit failEnv hf r hr).1]
  · show (mergeReports (reportsOf samplePermit .standard failEnv)).confidence = 3/10
    apply aggConf_all_fallback
    · have hlen : (reportsOf samplePermit .standard failEnv).length = 5 := by
        unfold reportsOf
        rw [if_neg (by decide)]
        simp [profileAgents]
      intro hc
      rw [hc] at hlen
      simp at hlen
    · intro r hr
      have h := reportsOf_fail samplePermit failEnv hf r hr
      exact ⟨by simp [h.1], h.2.1⟩

theorem reportsOf_length (p : Permit) (prof : AnalysisProfile) (env : Env) :
    (reportsOf p prof env).length = (profileAgents prof).length := by
  unfold reportsOf
  split
  · rename_i h
    rw [h]
    simp
  · simp

theorem reportsOf_ne_nil (p : Permit) (prof : AnalysisProfile) (env : Env) :
    reportsOf p prof env ≠ [] := by
  intro hc
  have h := reportsOf_length p prof env
  rw [hc] at h
  cases prof <;> simp [profileAgents] at h

/-- In a run where no report succeeded, every report is the agent's
fallback: confidence 0.3 and the domain's rule-based default items. -/
theorem reportsOf_no_success (p : Permit) (prof : AnalysisProfile) (env : Env)
    (hall : ∀ r ∈ reportsOf p prof env, r.status ≠ .succeeded) :
    ∀ r ∈ reportsOf p prof env,
      r.confidence = 3/10 ∧ r.items = defaults r.kind := by
  intro r hr
  by_cases hsim : prof = .simulated
  · exfalso
    subst hsim
    have hmem : simReport .chemical ∈ reportsOf p .simulated env := by
      unfold reportsOf
      rw [if_pos rfl]
      simp [profileAgents]
    exact hall _ hmem rfl
  · have hr2 := hr
    unfold reportsOf at hr2
    rw [if_neg hsim] at hr2
    obtain ⟨k, -, rfl⟩ := List.mem_map.mp hr2
    have hns := hall _ hr
    have h := runAgent_not_succ k p (retrOf p prof env).1 env (agentDlOf p prof env) hns
    refine ⟨h.1, ?_⟩
    rw [h.2, runAgent_kind]

/-- Claim C4 (amended): whenever zero agents succeed in an `Analyze` call
— any valid profile, any collaborator behaviour — the call still returns
a well-formed, schema-complete result (not an error) with `Degraded=true`
and an executive summary stating that no analysis could be completed; the
aggregate confidence then equals the fallback constant 0.3, and is 0 only
in the degenerate case of an empty report collection. -/
theorem zero_success_amended :
    ((mergeReports []).confidence = 0 ∧ (mergeReports []).degraded = true ∧
      noAnalysisMsg ∈ (mergeReports []).summary.findings) ∧
    (∀ (p : Permit) (s : String) (prof : AnalysisProfile) (env : Env),
      parseProfile s = some prof →
      succCountR (reportsOf p prof env) = 0 →
      (analyze p s env).1 = Except.ok (runPipe p prof env) ∧
      respShapeB (encodeResult (runPipe p prof env)) = true ∧
      (runPipe p prof env).body.degraded = true ∧
      (runPipe p prof env).body.confidence = 3/10 ∧
      noAnalysisMsg ∈ (runPipe p prof env).body.summary.findings) := by
  constructor
  · refine ⟨?_, rfl, ?_⟩
    · show aggConf [] = 0
      simp [aggConf, sumWC, sumW]
    · show noAnalysisMsg ∈ (mkMergeOutput (aggConf []) (succCountR []) 0
        (canonItems []) (canonCits [])).summary.findings
      simp [mkMergeOutput, succCountR]
  · intro p s prof env hs hsucc
    have hsucc' : (reportsOf p prof env).countP
        (fun r => decide (r.status = .succeeded)) = 0 := hsucc
    have hall : ∀ r ∈ reportsOf p prof env, r.status ≠ .succeeded := by
      intro r hr
      have h := List.countP_eq_zero.mp hsucc' r hr
      simpa using h
    have hfacts := reportsOf_no_success p prof env hall
    refine ⟨by unfold analyze; rw [hs], encodeResult_shape _, ?_, ?_, ?_⟩
    · show (mergeReports (reportsOf p prof env)).degraded = true
      have hd : (mergeReports (reportsOf p prof env)).degraded =
          decide (succCountR (reportsOf p prof env) < (reportsOf p prof env).length ∨
            (reportsOf p prof env).length = 0) := rfl
      rw [hd, hsucc]
      simp only [decide_eq_true_eq]
      omega
    · show (mergeReports (reportsOf p prof env)).confidence = 3/10
      apply aggConf_all_fallback _ (reportsOf_ne_nil p prof env)
      intro r hr
      exact ⟨hall r hr, (hfacts r hr).1⟩
    · show noAnalysisMsg ∈ (mergeReports (reportsOf p prof env)).summary.findings
      unfold mergeReports mkMergeOutput
      simp only [hsucc]
      simp

/-- Witness for the amended C4: a Standard-profile run against the
concrete failing environment, in which zero agents succeed. -/
theorem zero_success_amended_witness :
    (analyze samplePermit "standard" failEnv).1 =
      Except.ok (runPipe samplePermit .standard failEnv) ∧
    respShapeB (encodeResult (runPipe samplePermit .standard failEnv)) = true ∧
    (runPipe samplePermit .standard failEnv).body.degraded = true ∧
    (runPipe samplePermit .standard failEnv).body.confidence = 3/10 ∧
    noAnalysisMsg ∈ (runPipe samplePermit .standard failEnv).body.summary.findings :=
  zero_success_amended.2 samplePermit "standard" .standard failEnv (by decide)
    (by decide)

theorem sumW_nonneg (rs : List AgentReport) : 0 ≤ sumW rs := by
  unfold sumW
  apply List.sum_nonneg
  intro x hx
  obtain ⟨r, -, rfl⟩ := List.mem_map.mp hx
  unfold wOf
  split <;> norm_num

theorem sumWC_append_cons (l1 l2 : List AgentReport) (x : AgentReport) :
    sumWC (l1 ++ x :: l2) = sumWC (l1 ++ l2) + wOf x * x.confidence := by
  simp [sumWC, List.sum_append]
  ring

theorem sumW_append_cons (l1 l2 : List AgentReport) (x : AgentReport) :
    sumW (l1 ++ x :: l2) = sumW (l1 ++ l2) + wOf x := by
  simp [sumW, List.sum_append]
  ring

/-- Counterexample to C6 as stated: replacing a successful result (with
confidence equal to the 0.3 fallback constant) by its fallback version
*increases* the aggregate confidence when another high-confidence agent is
present — so degradation monotonicity fails unconditionally. -/
theorem degrade_increases_conf_counterexample :
    reportA.status = .succeeded ∧
    aggConf [reportB, reportA] < aggConf [reportB, fallbackOf reportA] := by
  refine ⟨rfl, ?_⟩
  unfold aggConf sumWC sumW
  simp [reportA, reportB, fallbackOf, fallbackReport, wOf]
  norm_num

/-- Claim C6 (amended): replacing a successful agent result by its
fallback-default version (weight 0.3, confidence 0.3) never increases the
aggregate weighted-average confidence, provided the replaced result's
confidence is at least the fallback constant 0.3 and at least the
weighted average of the remaining results. -/
theorem degrade_monotone (l1 l2 : List AgentReport) (a : AgentReport)
    (ha : a.status = .succeeded) (hc : 3/10 ≤ a.confidence)
    (hS : sumWC (l1 ++ l2) ≤ a.confidence * sumW (l1 ++ l2)) :
    aggConf (l1 ++ fallbackOf a :: l2) ≤ aggConf (l1 ++ a :: l2) := by
  have hW : (0 : ℚ) ≤ sumW (l1 ++ l2) := sumW_nonneg _
  have hwa : wOf a = 1 := by simp [wOf, ha]
  have hwf : wOf (fallbackOf a) = 3/10 := by
    simp [wOf, fallbackOf, fallbackReport]
  have hcf : (fallbackOf a).confidence = 3/10 := rfl
  unfold aggConf
  rw [sumWC_append_cons, sumW_append_cons, sumWC_append_cons, sumW_append_cons,
    hwa, hwf, hcf]
  set S := sumWC (l1 ++ l2) with hSdef
  set W := sumW (l1 ++ l2) with hWdef
  rw [div_le_div_iff₀ (by linarith) (by linarith)]
  nlinarith [mul_nonneg hW (sub_nonneg.mpr hc), hS, hc, hW]

/-- Witness for the amended C6 at a concrete singleton report list. -/
theorem degrade_monotone_witness :
    aggConf [fallbackOf reportB] ≤ aggConf [reportB] := by
  have h := degrade_monotone [] [] reportB rfl (by norm_num [reportB])
    (by simp [sumWC, sumW])
  simpa using h

theorem pickBetter_cases (a b : ActionItem) :
    pickBetter a b = a ∨ pickBetter a b = b := by
  unfold pickBetter
  split
  · exact Or.inl rfl
  · exact Or.inr rfl

theorem pickBetter_key {a b : ActionItem} (h : keyIt a = keyIt b) :
    keyIt (pickBetter a b) = keyIt b := by
  unfold pickBetter
  split
  · exact h
  · rfl

theorem pickBetter_rank (a b : ActionItem) :
    prioRank a.priority ≤ prioRank (pickBetter a b).priority ∧
    prioRank b.priority ≤ prioRank (pickBetter a b).priority := by
  unfold pickBetter
  split
  · rename_i h
    omega
  · rename_i h
    omega

theorem itLe_keyLe {a b : ActionItem} (h : itLe a b) : keyIt a ≤ keyIt b := by
  unfold itLe encIt at h
  unfold keyIt
  rw [Prod.Lex.le_iff] at h ⊢
  rcases h with h | ⟨h1, h2⟩
  · exact Or.inl h
  · rw [Prod.Lex.le_iff] at h2
    rcases h2 with h2 | ⟨h2, -⟩
    · exact Or.inr ⟨h1, le_of_lt h2⟩
    · exact Or.inr ⟨h1, le_of_eq h2⟩

theorem collapse_subset : ∀ (l : List ActionItem), ∀ x ∈ collapse l, x ∈ l := by
  intro l
  induction l with
  | nil => simp [collapse]
  | cons a t ih =>
    intro x hx
    unfold collapse at hx
    revert hx
    cases hct : collapse t with
    | nil =>
      intro hx
      simp at hx
      simp [hx]
    | cons b u =>
      have hb : b ∈ t := ih b (by rw [hct]; simp)
      have hu : ∀ y ∈ u, y ∈ t := fun y hy => ih y (by rw [hct]; simp [hy])
      by_cases hk : keyIt a = keyIt b <;> simp only [hk, if_true, if_false] <;> intro hx
      · rcases List.mem_cons.mp hx with hx | hx
        · rcases pickBetter_cases a b with hp | hp
          · rw [hp] at hx
            simp [hx]
          · rw [hp] at hx
            subst hx
            exact List.mem_cons_of_mem a hb
        · exact List.mem_cons_of_mem a (hu x hx)
      · rcases List.mem_cons.mp hx with hx | hx
        · simp [hx]
        · rcases List.mem_cons.mp hx with hx | hx
          · subst hx
            exact List.mem_cons_of_mem a hb
          · exact List.mem_cons_of_mem a (hu x hx)

theorem collapse_covers : ∀ (l : List ActionItem), ∀ j ∈ l,
    ∃ i ∈ collapse l, keyIt i = keyIt j ∧
      prioRank j.priority ≤ prioRank i.priority := by
  intro l
  induction l with
  | nil => simp
  | cons a t ih =>
    intro j hj
    unfold collapse
    cases hct : collapse t with
    | nil =>
      have ht : t = [] := by
        cases t with
        | nil => rfl
        | cons x xs =>
          obtain ⟨i, hi, -⟩ := ih x (by simp)
          rw [hct] at hi
          exact absurd hi (List.not_mem_nil i)
      subst ht
      have hja : j = a := by simpa using hj
      exact ⟨a, by simp, by rw [hja], by simp [hja]⟩
    | cons b u =>
      by_cases hk : keyIt a = keyIt b <;> simp only [hk, if_true, if_false]
      · rcases List.mem_cons.mp hj with hj | hj
        · subst hj
          exact ⟨pickBetter j b, by simp, by rw [pickBetter_key hk]; exact hk.symm,
            (pickBetter_rank j b).1⟩
        · obtain ⟨i, hi, hki, hri⟩ := ih j hj
          rw [hct] at hi
          rcases List.mem_cons.mp hi with hi | hi
          · subst hi
            exact ⟨pickBetter a i, by simp, by rw [pickBetter_key hk, hki],
              le_trans hri (pickBetter_rank a i).2⟩
          · exact ⟨i, by simp [hi], hki, hri⟩
      · rcases List.mem_cons.mp hj with hj | hj
        · subst hj
          exact ⟨j, by simp, rfl, le_refl _⟩
        · obtain ⟨i, hi, hki, hri⟩ := ih j hj
          rw [hct] at hi
          exact ⟨i, by simp [List.mem_cons.mp hi], hki, hri⟩

theorem collapse_keys (l : List ActionItem)
    (hs : l.Pairwise (fun x y => keyIt x ≤ keyIt y)) :
    (collapse l).Pairwise (fun x y => keyIt x ≤ keyIt y) ∧
    (collapse l).Pairwise (fun x y => keyIt x ≠ keyIt y) := by
  induction l with
  | nil => simp [collapse]
  | cons a t ih =>
    rw [List.pairwise_cons] at hs
    obtain ⟨ha, ht⟩ := hs
    obtain ⟨hle_t, hne_t⟩ := ih ht
    unfold collapse
    cases hct : collapse t with
    | nil => simp
    | cons b u =>
      rw [hct] at hle_t hne_t
      rw [List.pairwise_cons] at hle_t hne_t
      obtain ⟨hble, hule⟩ := hle_t
      obtain ⟨hbne, hune⟩ := hne_t
      have hb : b ∈ t := collapse_subset t b (by rw [hct]; simp)
      have hab : keyIt a ≤ keyIt b := ha b hb
      by_cases hk : keyIt a = keyIt b <;> simp only [hk, if_true, if_false]
      · rw [List.pairwise_cons, List.pairwise_cons]
        have hpk : keyIt (pickBetter a b) = keyIt b := pickBetter_key hk
        exact ⟨⟨fun y hy => hpk ▸ hble y hy, hule⟩,
          ⟨fun y hy => hpk ▸ hbne y hy, hune⟩⟩
      · rw [List.pairwise_cons, List.pairwise_cons, List.pairwise_cons,
          List.pairwise_cons]
        have hblt : ∀ y ∈ u, keyIt b < keyIt y :=
          fun y hy => lt_of_le_of_ne (hble y hy) (hbne y hy)
        have halt : keyIt a < keyIt b := lt_of_le_of_ne hab hk
        refine ⟨⟨?_, hble, hule⟩, ⟨?_, hbne, hune⟩⟩
        · intro y hy
          rcases List.mem_cons.mp hy with hy | hy
          · subst hy
            exact hab
          · exact le_of_lt (lt_trans halt (hblt y hy))
        · intro y hy
          rcases List.mem_cons.mp hy with hy | hy
          · subst hy
            exact hk
          · exact ne_of_lt (lt_trans halt (hblt y hy))

/-- Claim C7: the merged action-item list is the deduplicated union of all
agents' items — (1) it is sorted by priority (critical > high > medium >
low) then hazard-category name; (2) no two entries share the dedup key
(hazard category, normalised remediation text); (3) every entry comes
from some agent's items; (4) every agent item is represented by an entry
with the same key and at least its priority (the higher-priority instance
is kept). -/
theorem merge_action_items (rs : List AgentReport) :
    ((mergeReports rs).items).Sorted dispLe ∧
    ((mergeReports rs).items).Pairwise (fun x y => keyIt x ≠ keyIt y) ∧
    (∀ i ∈ (mergeReports rs).items, i ∈ rs.flatMap (fun r => r.items)) ∧
    (∀ j ∈ rs.flatMap (fun r => r.items), ∃ i ∈ (mergeReports rs).items,
      keyIt i = keyIt j ∧ prioRank j.priority ≤ prioRank i.priority) := by
  have hitems : (mergeReports rs).items =
      List.insertionSort dispLe (collapse (canonItems rs)) := rfl
  have hsorted : (canonItems rs).Pairwise (fun x y => keyIt x ≤ keyIt y) := by
    have := List.sorted_insertionSort itLe (rs.flatMap (fun r => r.items))
    exact List.Pairwise.imp (fun h => itLe_keyLe h) this
  have hperm := List.perm_insertionSort dispLe (collapse (canonItems rs))
  have hpermC := List.perm_insertionSort itLe (rs.flatMap (fun r => r.items))
  refine ⟨?_, ?_, ?_, ?_⟩
  · rw [hitems]
    exact List.sorted_insertionSort dispLe _
  · rw [hitems]
    exact (hperm.pairwise_iff (by intro x y h h2; exact h h2.symm)).mpr
      (collapse_keys _ hsorted).2
  · intro i hi
    rw [hitems] at hi
    have hi2 : i ∈ collapse (canonItems rs) := hperm.mem_iff.mp hi
    have hi3 : i ∈ canonItems rs := collapse_subset _ i hi2
    exact hpermC.mem_iff.mp hi3
  · intro j hj
    have hj2 : j ∈ canonItems rs := hpermC.mem_iff.mpr hj
    obtain ⟨i, hi, hki, hri⟩ := collapse_covers _ j hj2
    rw [hitems]
    exact ⟨i, hperm.mem_iff.mpr hi, hki, hri⟩

/-- Witness for C7 at a concrete one-agent report list, instantiating the
coverage clause at the chemical default item. -/
theorem merge_action_items_witness :
    ((mergeReports [reportA]).items).Sorted dispLe ∧
    (∃ i ∈ (mergeReports [reportA]).items,
      keyIt i = keyIt (defaultItem "DEF_CHEM" .chemical .high
        "Verifica schede di sicurezza" "Consultare le SDS delle sostanze presenti"
        "Esposizione a sostanze pericolose" "RSPP") ∧
      prioRank Priority.high ≤ prioRank i.priority) := by
  have h := merge_action_items [reportA]
  refine ⟨h.1, ?_⟩
  have hmem : (defaultItem "DEF_CHEM" .chemical .high
      "Verifica schede di sicurezza" "Consultare le SDS delle sostanze presenti"
      "Esposizione a sostanze pericolose" "RSPP") ∈
      [reportA].flatMap (fun r => r.items) := by
    simp [reportA, defaults]
  exact h.2.2.2 _ hmem

/-- Counterexample to C8 as stated: the encoded response of a concrete
`Analyze` run does not carry the claimed field set — its `citations`
object has buckets `normative`, `procedures`, `guidelines` (and the top
level carries `permit_id` and `completion_roadmap`), not the claimed
`normative`/`internal` pair. -/
theorem wire_shape_counterexample :
    ¬ claimedShape (encodeResult (runPipe samplePermit .standard failEnv)) := by
  intro h
  have h2 := h.2
  have he : fieldKeys (objAt (encodeResult
      (runPipe samplePermit .standard failEnv)) "citations") = citBucketsActual := rfl
  rw [he] at h2
  exact absurd h2 (by decide)

/-- Claim C8 (amended): every orchestrator/profile returns the same stable
wire response shape — the one documented in the repository's AI
Orchestrator API Guide: top-level fields `analysis_id, permit_id,
confidence_score, processing_time, executive_summary, action_items,
citations, completion_roadmap, performance_metrics`, with the documented
sub-fields at every level (citations bucketed as
`normative/procedures/guidelines`). -/
theorem wire_shape_stable (p : Permit) (prof : AnalysisProfile) (env : Env) :
    respShapeB (encodeResult (runPipe p prof env)) = true ∧
    fieldKeys (encodeResult (runPipe p prof env)) = topKeysActual ∧
    fieldKeys (objAt (encodeResult (runPipe p prof env)) "citations") =
      citBucketsActual :=
  ⟨encodeResult_shape _, rfl, rfl⟩

/-- Witness for the amended C8 at the Minimal profile with failing
collaborators. -/
theorem wire_shape_stable_witness :
    respShapeB (encodeResult (runPipe samplePermit .minimal failEnv)) = true ∧
    fieldKeys (encodeResult (runPipe samplePermit .minimal failEnv)) = topKeysActual ∧
    fieldKeys (objAt (encodeResult (runPipe samplePermit .minimal failEnv)) "citations") =
      citBucketsActual :=
  wire_shape_stable samplePermit .minimal failEnv

end HSE

namespace Frontend

theorem startsWithL_iff :
    ∀ (pat l : List Char), startsWithL pat l = true ↔ ∃ r, l = pat ++ r := by
  intro pat
  induction pat with
  | nil =>
    intro l
    simp [startsWithL]
  | cons p ps ih =>
    intro l
    cases l with
    | nil => simp [startsWithL]
    | cons c cs =>
      simp only [startsWithL, Bool.and_eq_true, beq_iff_eq, ih, List.cons_append]
      constructor
      · rintro ⟨rfl, r, rfl⟩
        exact ⟨r, rfl⟩
      · rintro ⟨r, he⟩
        injection he with h1 h2
        exact ⟨h1.symm, r, h2⟩

theorem hasSubL_iff :
    ∀ (pat l : List Char), hasSubL pat l = true ↔ ∃ u v, l = u ++ pat ++ v := by
  intro pat l
  induction l with
  | nil =>
    simp only [hasSubL, startsWithL_iff]
    constructor
    · rintro ⟨r, hr⟩
      exact ⟨[], r, by simp [← hr]⟩
    · rintro ⟨u, v, huv⟩
      rw [List.append_assoc] at huv
      obtain ⟨-, hpv⟩ := List.append_eq_nil.mp huv.symm
      obtain ⟨hp, -⟩ := List.append_eq_nil.mp hpv
      exact ⟨[], by simp [hp]⟩
  | cons c cs ih =>
    simp only [hasSubL, Bool.or_eq_true, startsWithL_iff, ih]
    constructor
    · rintro (⟨r, hr⟩ | ⟨u, v, huv⟩)
      · exact ⟨[], r, by simp [hr]⟩
      · exact ⟨c :: u, v, by simp [huv]⟩
    · rintro ⟨u, v, huv⟩
      cases u with
      | nil => exact Or.inl ⟨v, by simpa using huv⟩
      | cons x xs =>
        injection huv with h1 h2
        exact Or.inr ⟨xs, v, h2⟩

theorem strIncludes_iff (s sub : String) :
    strIncludes s sub = true ↔ SubOccurs sub s :=
  hasSubL_iff sub.toList s.toList

/-- Claim C9: `apiCall` selects the 120000 ms timeout exactly when the
endpoint contains `/documents`, `/permits` or `/work-permits` as a
substring, and 10000 ms for every other endpoint, before delegating to
`apiCallWithTimeout`. -/
theorem apiCall_timeout (endpoint : String) :
    ((apiCallReq endpoint).timeoutMs = 120000 ↔
      (SubOccurs "/documents" endpoint ∨ SubOccurs "/permits" endpoint ∨
        SubOccurs "/work-permits" endpoint)) ∧
    ((apiCallReq endpoint).timeoutMs = 10000 ↔
      ¬(SubOccurs "/documents" endpoint ∨ SubOccurs "/permits" endpoint ∨
        SubOccurs "/work-permits" endpoint)) ∧
    apiCallReq endpoint = apiCallWithTimeoutReq endpoint (apiCallTimeoutMs endpoint) := by
  have hiff : (strIncludes endpoint "/documents" || strIncludes endpoint "/permits"
      || strIncludes endpoint "/work-permits") = true ↔
      (SubOccurs "/documents" endpoint ∨ SubOccurs "/permits" endpoint ∨
        SubOccurs "/work-permits" endpoint) := by
    simp only [Bool.or_eq_true, strIncludes_iff, or_assoc]
  by_cases hb : (strIncludes endpoint "/documents" || strIncludes endpoint "/permits"
      || strIncludes endpoint "/work-permits") = true
  · have htv : (apiCallReq endpoint).timeoutMs = 120000 := by
      show apiCallTimeoutMs endpoint = 120000
      unfold apiCallTimeoutMs
      rw [if_pos hb]
    refine ⟨?_, ?_, rfl⟩
    · rw [htv]
      exact iff_of_true rfl (hiff.mp hb)
    · rw [htv]
      exact iff_of_false (by decide) (fun hc => hc (hiff.mp hb))
  · have hP : ¬(SubOccurs "/documents" endpoint ∨ SubOccurs "/permits" endpoint ∨
        SubOccurs "/work-permits" endpoint) := fun hp => hb (hiff.mpr hp)
    have htv : (apiCallReq endpoint).timeoutMs = 10000 := by
      show apiCallTimeoutMs endpoint = 10000
      unfold apiCallTimeoutMs
      rw [if_neg hb]
    refine ⟨?_, ?_, rfl⟩
    · rw [htv]
      exact iff_of_false (by decide) hP
    · rw [htv]
      exact iff_of_true rfl hP

/-- Witness for C9 at concrete endpoints: a permit endpoint gets the
120000 ms timeout, while `/health` contains none of the three substrings. -/
theorem apiCall_timeout_witness :
    (apiCallReq "/api/v1/permits/1/analyze").timeoutMs = 120000 ∧
    ¬(SubOccurs "/documents" "/health" ∨ SubOccurs "/permits" "/health" ∨
      SubOccurs "/work-permits" "/health") :=
  ⟨(apiCall_timeout "/api/v1/permits/1/analyze").1.mpr
      (Or.inr (Or.inl ⟨"/api/v1".toList, "/1/analyze".toList, by decide⟩)),
    (apiCall_timeout "/health").2.1.mp (by decide)⟩

/-- Claim C10: `handlePreviewAnalysis` issues no request and reports a
validation error (leaving the analysis state untouched) when title,
description or work type is empty; with all three non-empty it POSTs to
`/api/v1/permits/analyze-preview` with `analysis_type: "comprehensive"`. -/
theorem preview_analysis_validation (f : PermitForm) (st : PageState) :
    ((f.title = "" ∨ f.description = "" ∨ f.workType = "") →
      (handlePreviewAnalysis f st).2 = none ∧
      (handlePreviewAnalysis f st).1.error =
        some "Title, description, and work type are required for analysis" ∧
      (handlePreviewAnalysis f st).1.isAnalyzing = false ∧
      (handlePreviewAnalysis f st).1.analysisResult = st.analysisResult ∧
      (handlePreviewAnalysis f st).1.showAnalysis = st.showAnalysis) ∧
    (f.title ≠ "" → f.description ≠ "" → f.workType ≠ "" →
      ∃ req, (handlePreviewAnalysis f st).2 = some req ∧
        req.endpoint = "/api/v1/permits/analyze-preview" ∧
        req.method = "POST" ∧
        ("analysis_type", "comprehensive") ∈ req.body) := by
  constructor
  · intro h
    have hb : (f.title = "" || f.description = "" || f.workType = "") = true := by
      rcases h with h | h | h <;> simp [h]
    unfold handlePreviewAnalysis
    rw [if_pos (by simpa using hb)]
    exact ⟨rfl, rfl, rfl, rfl, rfl⟩
  · intro h1 h2 h3
    unfold handlePreviewAnalysis
    rw [if_neg (by simp [h1, h2, h3])]
    exact ⟨_, rfl, rfl, rfl, by simp⟩

/-- Witness for C10: an empty-title form yields no request; the filled
sample form yields the analyze-preview POST. -/
theorem preview_analysis_validation_witness :
    (handlePreviewAnalysis
      { title := "", description := "d", workType := "manutenzione",
        location := "", riskLevel := "low", startDate := "", endDate := "",
        contractorName := "", contractorCompany := "", safetyRequirements := "",
        equipmentRequired := "", hazardsIdentified := "", controlMeasures := "",
        riskMitigationActions := "" }
      { error := none, isAnalyzing := false, analysisResult := none,
        showAnalysis := false }).2 = none ∧
    (∃ req, (handlePreviewAnalysis
      { title := "t", description := "d", workType := "manutenzione",
        location := "", riskLevel := "low", startDate := "", endDate := "",
        contractorName := "", contractorCompany := "", safetyRequirements := "",
        equipmentRequired := "", hazardsIdentified := "", controlMeasures := "",
        riskMitigationActions := "" }
      { error := none, isAnalyzing := false, analysisResult := none,
        showAnalysis := false }).2 = some req ∧
      req.endpoint = "/api/v1/permits/analyze-preview" ∧
      req.method = "POST" ∧
      ("analysis_type", "comprehensive") ∈ req.body) :=
  ⟨((preview_analysis_validation _ _).1 (Or.inl rfl)).1,
    (preview_analysis_validation _ _).2 (by decide) (by decide) (by decide)⟩

end Frontend
